import Mathlib

/-!
Shallow embedding of src/commands.py: the symbolic IR of a minimal imperative
language.  Expressions carry a type tag and evaluate, given a symbolic store
and a step index, to either a concrete Python value or a symbolic solver term.
Commands (Assign, GoTo, Stop) are plain records with textual renderings.
-/

namespace ImpToSmt

/-- Type tag of an expression node.  Mirrors the source enum Type with members
BOOL = 0 and NAT = 1 (the name Ty avoids clashing with the Lean keyword). -/
inductive Ty where
  | BOOL
  | NAT
deriving DecidableEq

/-- Sort of a solver term: integer, real, or boolean.  Used to model the sort
checks the z3 library performs when it coerces operands of an operator. -/
inductive SSort where
  | int
  | real
  | bool
deriving DecidableEq

/-- Join of two numeric sorts under arithmetic coercion: real absorbs int. -/
def SSort.join : SSort → SSort → SSort
  | .real, _ => .real
  | _, .real => .real
  | s, _ => s

/-- True for the arithmetic sorts int and real, false for bool. -/
def SSort.isNum : SSort → Bool
  | .bool => false
  | _ => true

/-- Symbolic solver terms: the ArithRef / BoolRef values that evaluation
produces.  Leaves are named integer variables and literals coerced from
concrete Python values; interior nodes are the arithmetic, relational and
boolean operators the source applies to the results of child evaluations. -/
inductive SymTerm where
  | intVar (name : String)
  | intLit (n : Int)
  | ratLit (q : ℚ)
  | boolLit (b : Bool)
  | add (t1 t2 : SymTerm)
  | sub (t1 t2 : SymTerm)
  | mul (t1 t2 : SymTerm)
  | div (t1 t2 : SymTerm)
  | eq (t1 t2 : SymTerm)
  | lt (t1 t2 : SymTerm)
  | conj (t1 t2 : SymTerm)
  | disj (t1 t2 : SymTerm)
  | neg (t : SymTerm)
deriving DecidableEq

/-- Sort of a symbolic term. -/
def SymTerm.sort : SymTerm → SSort
  | .intVar _ => .int
  | .intLit _ => .int
  | .ratLit _ => .real
  | .boolLit _ => .bool
  | .add t1 t2 => t1.sort.join t2.sort
  | .sub t1 t2 => t1.sort.join t2.sort
  | .mul t1 t2 => t1.sort.join t2.sort
  | .div t1 t2 => t1.sort.join t2.sort
  | .eq _ _ => .bool
  | .lt _ _ => .bool
  | .conj _ _ => .bool
  | .disj _ _ => .bool
  | .neg _ => .bool

/-- Literal payload of a Constant node: the source annotates it as the union
of the Python int and bool types. -/
inductive PyLit where
  | int (n : Int)
  | bool (b : Bool)
deriving DecidableEq

/-- Runtime value flowing out of evaluation: a concrete Python int or bool
(from Constant nodes and concrete folding), a Python float (an IEEE-754
binary64 double, produced by true division of concrete numbers and carried
here as the exact rational value that the double denotes), or a symbolic
solver term. -/
inductive PyVal where
  | int (n : Int)
  | bool (b : Bool)
  | float (q : ℚ)
  | term (t : SymTerm)
deriving DecidableEq

/-- Failure modes of evaluation.  unboundVariable models the store lookup
miss (a Python KeyError, the spec error kind UnboundVariable);
stepIndexOutOfRange models an index outside the populated range of a store
sequence; sortMismatch models the exception z3 raises when operand sorts
cannot be coerced; zeroDivision models the Python ZeroDivisionError raised
by concrete division by zero; overflow models the Python OverflowError
raised when a concrete integer quotient is too large for a float. -/
inductive EvalError where
  | unboundVariable (name : String)
  | stepIndexOutOfRange
  | sortMismatch
  | zeroDivision
  | overflow
deriving DecidableEq

/-- Numeric view of a concrete value, following Python numeric coercion:
bool counts as 0 or 1, int and float embed into the rationals.  Symbolic
terms have no concrete numeric view. -/
def concreteRat : PyVal → Option ℚ
  | .int n => some (n : ℚ)
  | .bool b => some (if b then 1 else 0)
  | .float q => some q
  | .term _ => none

/-- Integer view of a concrete int or bool, following Python: True is 1. -/
def concreteInt : PyVal → Option Int
  | .int n => some n
  | .bool b => some (if b then 1 else 0)
  | _ => none

/-- Coercion of a runtime value into a solver term, as z3 performs when a
concrete Python value meets a symbolic operand. -/
def toTerm : PyVal → SymTerm
  | .int n => .intLit n
  | .bool b => .boolLit b
  | .float q => .ratLit q
  | .term t => t

/-- Arithmetic combination when at least one operand is symbolic: both
operands are coerced to terms and must have arithmetic sorts, as z3 requires;
a boolean operand raises a sort mismatch. -/
def termArith (op : SymTerm → SymTerm → SymTerm) (v1 v2 : PyVal) :
    Except EvalError PyVal :=
  let t1 := toTerm v1
  let t2 := toTerm v2
  if t1.sort.isNum && t2.sort.isNum then .ok (.term (op t1 t2))
  else .error .sortMismatch

/-- The Python + combinator applied by Plus to the results of its children:
concrete ints and bools add to an int, a concrete float makes the result a
float, and a symbolic operand produces a symbolic sum. -/
def pyAdd (v1 v2 : PyVal) : Except EvalError PyVal :=
  match v1, v2 with
  | .term _, _ | _, .term _ => termArith SymTerm.add v1 v2
  | .float _, _ | _, .float _ =>
    match concreteRat v1, concreteRat v2 with
    | some q1, some q2 => .ok (.float (q1 + q2))
    | _, _ => .error .sortMismatch
  | _, _ =>
    match concreteInt v1, concreteInt v2 with
    | some a, some b => .ok (.int (a + b))
    | _, _ => .error .sortMismatch

/-- The Python - combinator applied by Minus, with the same dispatch as +. -/
def pySub (v1 v2 : PyVal) : Except EvalError PyVal :=
  match v1, v2 with
  | .term _, _ | _, .term _ => termArith SymTerm.sub v1 v2
  | .float _, _ | _, .float _ =>
    match concreteRat v1, concreteRat v2 with
    | some q1, some q2 => .ok (.float (q1 - q2))
    | _, _ => .error .sortMismatch
  | _, _ =>
    match concreteInt v1, concreteInt v2 with
    | some a, some b => .ok (.int (a - b))
    | _, _ => .error .sortMismatch

/-- The Python * combinator applied by Product, with the same dispatch as +. -/
def pyMul (v1 v2 : PyVal) : Except EvalError PyVal :=
  match v1, v2 with
  | .term _, _ | _, .term _ => termArith SymTerm.mul v1 v2
  | .float _, _ | _, .float _ =>
    match concreteRat v1, concreteRat v2 with
    | some q1, some q2 => .ok (.float (q1 * q2))
    | _, _ => .error .sortMismatch
  | _, _ =>
    match concreteInt v1, concreteInt v2 with
    | some a, some b => .ok (.int (a * b))
    | _, _ => .error .sortMismatch

/-- Floor of the base-two logarithm of a positive natural number, computed
by fuel recursion; the number itself is always enough fuel. -/
def natLog2Aux : ℕ → ℕ → ℕ
  | 0, _ => 0
  | fuel + 1, n => if n ≤ 1 then 0 else 1 + natLog2Aux fuel (n / 2)

/-- Floor of the base-two logarithm of a natural number, 0 at 0. -/
def natLog2 (n : ℕ) : ℕ := natLog2Aux n n

/-- Binary exponent of the positive rational a / b: the unique e with
2 ^ e ≤ a / b < 2 ^ (e + 1), located from the bit lengths of a and b and
fixed up by direct comparison. -/
def ratExp (a b : ℕ) : Int :=
  let L : Int := (natLog2 a : Int) - (natLog2 b : Int)
  if (2 : ℚ) ^ (L + 1) ≤ (a : ℚ) / (b : ℚ) then L + 1
  else if (2 : ℚ) ^ L ≤ (a : ℚ) / (b : ℚ) then L
  else L - 1

/-- Rounding of a nonnegative rational to the nearest integer with ties to
the even neighbour, the rounding mode IEEE-754 prescribes. -/
def roundHalfEven (x : ℚ) : Int :=
  let f := Int.floor x
  if x - f < 1 / 2 then f
  else if 1 / 2 < x - f then f + 1
  else if f % 2 = 0 then f else f + 1

/-- CPython true division of two integers with nonzero divisor: the result
is the IEEE-754 binary64 double nearest the exact quotient (ties to even),
carried here as the exact rational value of that double — a dyadic rational
n * 2 ^ E, on the grid of 53-bit mantissas for normal magnitudes and on the
fixed grid of spacing 2 ^ (-1074) below 2 ^ (-1022); a quotient whose
rounded magnitude reaches 2 ^ 1024 raises OverflowError. -/
def divRound (a b : Int) : Except EvalError ℚ :=
  if a = 0 then .ok 0
  else
    let e := ratExp a.natAbs b.natAbs
    let E := max (e - 52) (-1074)
    let n := roundHalfEven (((a.natAbs : ℚ) / (b.natAbs : ℚ)) * (2 : ℚ) ^ (-E))
    let r := (n : ℚ) * (2 : ℚ) ^ E
    if (2 : ℚ) ^ (1024 : Int) ≤ r then .error .overflow
    else if (0 < a) ↔ (0 < b) then .ok r else .ok (-r)

/-- The Python / combinator applied by Division: on concrete numbers it is
true division into a binary64 float, correctly rounded as CPython computes
it and raising ZeroDivisionError on a zero divisor; with a symbolic operand
it builds a symbolic quotient. -/
def pyDiv (v1 v2 : PyVal) : Except EvalError PyVal :=
  match v1, v2 with
  | .term _, _ | _, .term _ => termArith SymTerm.div v1 v2
  | _, _ =>
    match concreteRat v1, concreteRat v2 with
    | some q1, some q2 =>
      if q2 = 0 then .error .zeroDivision
      else (divRound (q1.num * (q2.den : Int)) ((q1.den : Int) * q2.num)).map .float
    | _, _ => .error .sortMismatch

/-- The Python == combinator applied by Equal: concrete values compare
numerically and yield a concrete bool; with a symbolic operand z3 builds an
equality term, requiring the two sorts to be compatible. -/
def pyEq (v1 v2 : PyVal) : Except EvalError PyVal :=
  match v1, v2 with
  | .term _, _ | _, .term _ =>
    let t1 := toTerm v1
    let t2 := toTerm v2
    if (t1.sort.isNum && t2.sort.isNum) || (t1.sort == .bool && t2.sort == .bool)
    then .ok (.term (.eq t1 t2)) else .error .sortMismatch
  | _, _ =>
    match concreteRat v1, concreteRat v2 with
    | some q1, some q2 => .ok (.bool (decide (q1 = q2)))
    | _, _ => .error .sortMismatch

/-- The Python < combinator applied by Less: concrete values compare
numerically; with a symbolic operand z3 builds an ordering term over
arithmetic sorts. -/
def pyLt (v1 v2 : PyVal) : Except EvalError PyVal :=
  match v1, v2 with
  | .term _, _ | _, .term _ => termArith SymTerm.lt v1 v2
  | _, _ =>
    match concreteRat v1, concreteRat v2 with
    | some q1, some q2 => .ok (.bool (decide (q1 < q2)))
    | _, _ => .error .sortMismatch

/-- Coercion of an operand of the z3 And / Or / Not functions: a concrete
bool becomes a boolean literal term, a boolean-sorted term passes through,
and anything else raises the z3 sort error. -/
def toBoolTerm : PyVal → Except EvalError SymTerm
  | .bool b => .ok (.boolLit b)
  | .term t => if t.sort == .bool then .ok t else .error .sortMismatch
  | _ => .error .sortMismatch

/-- The z3 And combinator applied by the And node. -/
def pyAnd (v1 v2 : PyVal) : Except EvalError PyVal :=
  (toBoolTerm v1).bind fun t1 =>
    (toBoolTerm v2).bind fun t2 => .ok (.term (.conj t1 t2))

/-- The z3 Or combinator applied by the Or node. -/
def pyOr (v1 v2 : PyVal) : Except EvalError PyVal :=
  (toBoolTerm v1).bind fun t1 =>
    (toBoolTerm v2).bind fun t2 => .ok (.term (.disj t1 t2))

/-- The z3 Not combinator applied by the Not node. -/
def pyNot (v : PyVal) : Except EvalError PyVal :=
  (toBoolTerm v).bind fun t => .ok (.term (.neg t))

/-- Expression nodes, one constructor per source class: the bare base class
Expression (whose evaluation returns the z3 integer variable named none),
the leaves VariableValue and Constant, the binary arithmetic, relational and
boolean nodes, and the unary Not. -/
inductive Expr where
  | base (t : Ty)
  | variableValue (name : String)
  | constant (t : Ty) (value : PyLit)
  | plus (e1 e2 : Expr)
  | minus (e1 e2 : Expr)
  | product (e1 e2 : Expr)
  | division (e1 e2 : Expr)
  | equal (e1 e2 : Expr)
  | less (e1 e2 : Expr)
  | and (e1 e2 : Expr)
  | or (e1 e2 : Expr)
  | not (e : Expr)
deriving DecidableEq

/-- Type tag stored by each constructor, exactly as each source initializer
passes it to the base class: VariableValue and the four arithmetic nodes tag
NAT, Constant keeps the tag it was given, and the relational and boolean
nodes tag BOOL. -/
def Expr.type : Expr → Ty
  | .base t => t
  | .variableValue _ => .NAT
  | .constant t _ => t
  | .plus _ _ => .NAT
  | .minus _ _ => .NAT
  | .product _ _ => .NAT
  | .division _ _ => .NAT
  | .equal _ _ => .BOOL
  | .less _ _ => .BOOL
  | .and _ _ => .BOOL
  | .or _ _ => .BOOL
  | .not _ => .BOOL

/-- The symbolic store: a mapping from variable name to the ordered per-step
sequence of symbolic terms, owned and populated by the excluded unroller and
only read by evaluation.  The source annotates it merely as a dict; it is
modelled as an association list. -/
def Store := List (String × List SymTerm)

/-- Modelled from the spec: indexing a store sequence at a step index.  The
concrete sequence type is owned by the excluded unroller and absent from the
source; the spec describes an ordered sequence of per-step terms whose
populated range is the set of steps written so far, with any index outside
that range surfaced immediately as StepIndexOutOfRange and never clamped or
padded. -/
def seqGet (seq : List SymTerm) (i : Int) : Except EvalError SymTerm :=
  if h : 0 ≤ i ∧ i.toNat < seq.length then .ok (seq.get ⟨i.toNat, h.2⟩)
  else .error .stepIndexOutOfRange

/-- Injection of a Constant literal into a runtime value. -/
def litVal : PyLit → PyVal
  | .int n => .int n
  | .bool b => .bool b

/-- Evaluation, one equation per source evaluate method: the base class
returns the z3 integer variable named none; VariableValue looks its name up
in the store and indexes the resulting sequence at the step index; Constant
returns its literal; every composite node evaluates its children at the same
store and step index and combines the results with its combinator. -/
def evaluate : Expr → Store → Int → Except EvalError PyVal
  | .base _, _, _ => .ok (.term (.intVar "none"))
  | .variableValue name, s, i =>
    match s.lookup name with
    | none => .error (.unboundVariable name)
    | some seq => (seqGet seq i).map .term
  | .constant _ v, _, _ => .ok (litVal v)
  | .plus e1 e2, s, i =>
    (evaluate e1 s i).bind fun v1 => (evaluate e2 s i).bind fun v2 => pyAdd v1 v2
  | .minus e1 e2, s, i =>
    (evaluate e1 s i).bind fun v1 => (evaluate e2 s i).bind fun v2 => pySub v1 v2
  | .product e1 e2, s, i =>
    (evaluate e1 s i).bind fun v1 => (evaluate e2 s i).bind fun v2 => pyMul v1 v2
  | .division e1 e2, s, i =>
    (evaluate e1 s i).bind fun v1 => (evaluate e2 s i).bind fun v2 => pyDiv v1 v2
  | .equal e1 e2, s, i =>
    (evaluate e1 s i).bind fun v1 => (evaluate e2 s i).bind fun v2 => pyEq v1 v2
  | .less e1 e2, s, i =>
    (evaluate e1 s i).bind fun v1 => (evaluate e2 s i).bind fun v2 => pyLt v1 v2
  | .and e1 e2, s, i =>
    (evaluate e1 s i).bind fun v1 => (evaluate e2 s i).bind fun v2 => pyAnd v1 v2
  | .or e1 e2, s, i =>
    (evaluate e1 s i).bind fun v1 => (evaluate e2 s i).bind fun v2 => pyOr v1 v2
  | .not e, s, i =>
    (evaluate e s i).bind fun v => pyNot v

/-- Python str of a Constant literal: ints render in decimal, bools render
capitalized as in Python. -/
def pyStr : PyLit → String
  | .int n => toString n
  | .bool b => if b then "True" else "False"

/-- Textual rendering, one equation per source repr method: VariableValue
renders as its name, Constant as the str of its value, each binary node as
its two children in parentheses around its operator symbol, and Not as an
exclamation mark before its parenthesized child.  The bare base class has no
repr method of its own (Python falls back to the address-dependent default
object repr), so it renders as none. -/
def Expr.repr : Expr → Option String
  | .base _ => none
  | .variableValue name => some name
  | .constant _ v => some (pyStr v)
  | .plus e1 e2 =>
    (e1.repr).bind fun r1 => (e2.repr).bind fun r2 =>
      some ("(" ++ r1 ++ " + " ++ r2 ++ ")")
  | .minus e1 e2 =>
    (e1.repr).bind fun r1 => (e2.repr).bind fun r2 =>
      some ("(" ++ r1 ++ " - " ++ r2 ++ ")")
  | .product e1 e2 =>
    (e1.repr).bind fun r1 => (e2.repr).bind fun r2 =>
      some ("(" ++ r1 ++ " * " ++ r2 ++ ")")
  | .division e1 e2 =>
    (e1.repr).bind fun r1 => (e2.repr).bind fun r2 =>
      some ("(" ++ r1 ++ " / " ++ r2 ++ ")")
  | .equal e1 e2 =>
    (e1.repr).bind fun r1 => (e2.repr).bind fun r2 =>
      some ("(" ++ r1 ++ " == " ++ r2 ++ ")")
  | .less e1 e2 =>
    (e1.repr).bind fun r1 => (e2.repr).bind fun r2 =>
      some ("(" ++ r1 ++ " < " ++ r2 ++ ")")
  | .and e1 e2 =>
    (e1.repr).bind fun r1 => (e2.repr).bind fun r2 =>
      some ("(" ++ r1 ++ " && " ++ r2 ++ ")")
  | .or e1 e2 =>
    (e1.repr).bind fun r1 => (e2.repr).bind fun r2 =>
      some ("(" ++ r1 ++ " || " ++ r2 ++ ")")
  | .not e =>
    (e.repr).bind fun r => some ("!(" ++ r ++ ")")

/-- Assignment target: a bare name, distinct from the VariableValue leaf. -/
structure Variable where
  name : String
deriving DecidableEq

/-- Commands, one constructor per source subclass of Command, each carrying
its source line number: assignment, guarded jump, and halt. -/
inductive Command where
  | assign (line : Int) (var : Variable) (expr : Expr)
  | goTo (line : Int) (condition : Expr) (otherLine : Int)
  | stop (line : Int)
deriving DecidableEq

/-- Textual rendering of a command, one equation per source repr method. -/
def Command.repr : Command → Option String
  | .assign line var expr =>
    (expr.repr).map fun r => toString line ++ ": " ++ var.name ++ " = " ++ r
  | .goTo line condition otherLine =>
    (condition.repr).map fun r =>
      toString line ++ ": " ++ r ++ " => goto " ++ toString otherLine
  | .stop line => some (toString line ++ ": stop")

/-- Evaluation with the store threaded through the computation as the Python
interpreter threads the dict object: every method call receives the store,
reads from it, and hands it on unchanged to the next child evaluation, since
no evaluate method in the source ever writes to it.  Returned alongside the
result so that preservation of the store is a provable statement rather than
a modelling assumption. -/
def evaluateSt : Expr → Store → Int → Except EvalError PyVal × Store
  | .base _, s, _ => (.ok (.term (.intVar "none")), s)
  | .variableValue name, s, i =>
    (match s.lookup name with
     | none => .error (.unboundVariable name)
     | some seq => (seqGet seq i).map .term, s)
  | .constant _ v, s, _ => (.ok (litVal v), s)
  | .plus e1 e2, s, i =>
    match evaluateSt e1 s i with
    | (.error err, s1) => (.error err, s1)
    | (.ok v1, s1) =>
      match evaluateSt e2 s1 i with
      | (.error err, s2) => (.error err, s2)
      | (.ok v2, s2) => (pyAdd v1 v2, s2)
  | .minus e1 e2, s, i =>
    match evaluateSt e1 s i with
    | (.error err, s1) => (.error err, s1)
    | (.ok v1, s1) =>
      match evaluateSt e2 s1 i with
      | (.error err, s2) => (.error err, s2)
      | (.ok v2, s2) => (pySub v1 v2, s2)
  | .product e1 e2, s, i =>
    match evaluateSt e1 s i with
    | (.error err, s1) => (.error err, s1)
    | (.ok v1, s1) =>
      match evaluateSt e2 s1 i with
      | (.error err, s2) => (.error err, s2)
      | (.ok v2, s2) => (pyMul v1 v2, s2)
  | .division e1 e2, s, i =>
    match evaluateSt e1 s i with
    | (.error err, s1) => (.error err, s1)
    | (.ok v1, s1) =>
      match evaluateSt e2 s1 i with
      | (.error err, s2) => (.error err, s2)
      | (.ok v2, s2) => (pyDiv v1 v2, s2)
  | .equal e1 e2, s, i =>
    match evaluateSt e1 s i with
    | (.error err, s1) => (.error err, s1)
    | (.ok v1, s1) =>
      match evaluateSt e2 s1 i with
      | (.error err, s2) => (.error err, s2)
      | (.ok v2, s2) => (pyEq v1 v2, s2)
  | .less e1 e2, s, i =>
    match evaluateSt e1 s i with
    | (.error err, s1) => (.error err, s1)
    | (.ok v1, s1) =>
      match evaluateSt e2 s1 i with
      | (.error err, s2) => (.error err, s2)
      | (.ok v2, s2) => (pyLt v1 v2, s2)
  | .and e1 e2, s, i =>
    match evaluateSt e1 s i with
    | (.error err, s1) => (.error err, s1)
    | (.ok v1, s1) =>
      match evaluateSt e2 s1 i with
      | (.error err, s2) => (.error err, s2)
      | (.ok v2, s2) => (pyAnd v1 v2, s2)
  | .or e1 e2, s, i =>
    match evaluateSt e1 s i with
    | (.error err, s1) => (.error err, s1)
    | (.ok v1, s1) =>
      match evaluateSt e2 s1 i with
      | (.error err, s2) => (.error err, s2)
      | (.ok v2, s2) => (pyOr v1 v2, s2)
  | .not e, s, i =>
    match evaluateSt e s i with
    | (.error err, s1) => (.error err, s1)
    | (.ok v, s1) => (pyNot v, s1)

/-- The store-threading evaluator returns the store it was given, unchanged,
together with the result of the plain evaluator. -/
theorem evaluateSt_eq (e : Expr) : ∀ (s : Store) (i : Int),
    evaluateSt e s i = (evaluate e s i, s) := by
  induction e with
  | base t => intro s i; rfl
  | variableValue name => intro s i; rfl
  | constant t v => intro s i; rfl
  | plus e1 e2 ih1 ih2 =>
    intro s i
    cases hv1 : evaluate e1 s i with
    | error err => simp [evaluateSt, evaluate, ih1, hv1, Except.bind]
    | ok v1 =>
      cases hv2 : evaluate e2 s i <;>
        simp [evaluateSt, evaluate, ih1, ih2, hv1, hv2, Except.bind]
  | minus e1 e2 ih1 ih2 =>
    intro s i
    cases hv1 : evaluate e1 s i with
    | error err => simp [evaluateSt, evaluate, ih1, hv1, Except.bind]
    | ok v1 =>
      cases hv2 : evaluate e2 s i <;>
        simp [evaluateSt, evaluate, ih1, ih2, hv1, hv2, Except.bind]
  | product e1 e2 ih1 ih2 =>
    intro s i
    cases hv1 : evaluate e1 s i with
    | error err => simp [evaluateSt, evaluate, ih1, hv1, Except.bind]
    | ok v1 =>
      cases hv2 : evaluate e2 s i <;>
        simp [evaluateSt, evaluate, ih1, ih2, hv1, hv2, Except.bind]
  | division e1 e2 ih1 ih2 =>
    intro s i
    cases hv1 : evaluate e1 s i with
    | error err => simp [evaluateSt, evaluate, ih1, hv1, Except.bind]
    | ok v1 =>
      cases hv2 : evaluate e2 s i <;>
        simp [evaluateSt, evaluate, ih1, ih2, hv1, hv2, Except.bind]
  | equal e1 e2 ih1 ih2 =>
    intro s i
    cases hv1 : evaluate e1 s i with
    | error err => simp [evaluateSt, evaluate, ih1, hv1, Except.bind]
    | ok v1 =>
      cases hv2 : evaluate e2 s i <;>
        simp [evaluateSt, evaluate, ih1, ih2, hv1, hv2, Except.bind]
  | less e1 e2 ih1 ih2 =>
    intro s i
    cases hv1 : evaluate e1 s i with
    | error err => simp [evaluateSt, evaluate, ih1, hv1, Except.bind]
    | ok v1 =>
      cases hv2 : evaluate e2 s i <;>
        simp [evaluateSt, evaluate, ih1, ih2, hv1, hv2, Except.bind]
  | and e1 e2 ih1 ih2 =>
    intro s i
    cases hv1 : evaluate e1 s i with
    | error err => simp [evaluateSt, evaluate, ih1, hv1, Except.bind]
    | ok v1 =>
      cases hv2 : evaluate e2 s i <;>
        simp [evaluateSt, evaluate, ih1, ih2, hv1, hv2, Except.bind]
  | or e1 e2 ih1 ih2 =>
    intro s i
    cases hv1 : evaluate e1 s i with
    | error err => simp [evaluateSt, evaluate, ih1, hv1, Except.bind]
    | ok v1 =>
      cases hv2 : evaluate e2 s i <;>
        simp [evaluateSt, evaluate, ih1, ih2, hv1, hv2, Except.bind]
  | not e ih =>
    intro s i
    cases hv : evaluate e s i <;>
      simp [evaluateSt, evaluate, ih, hv, Except.bind]

/-- C1: evaluating a binary node at a store and step index applies the
declared combinator of the node to the evaluations of its two children at
that same store and step index, for every binary variant: Plus, Minus,
Product and Division with the Python arithmetic operators, Equal and Less
with the comparison operators, and And and Or with the z3 conjunction and
disjunction. -/
theorem binary_evaluate_structural (e1 e2 : Expr) (s : Store) (i : Int) :
    evaluate (.plus e1 e2) s i
      = (evaluate e1 s i).bind (fun v1 => (evaluate e2 s i).bind (pyAdd v1)) ∧
    evaluate (.minus e1 e2) s i
      = (evaluate e1 s i).bind (fun v1 => (evaluate e2 s i).bind (pySub v1)) ∧
    evaluate (.product e1 e2) s i
      = (evaluate e1 s i).bind (fun v1 => (evaluate e2 s i).bind (pyMul v1)) ∧
    evaluate (.division e1 e2) s i
      = (evaluate e1 s i).bind (fun v1 => (evaluate e2 s i).bind (pyDiv v1)) ∧
    evaluate (.equal e1 e2) s i
      = (evaluate e1 s i).bind (fun v1 => (evaluate e2 s i).bind (pyEq v1)) ∧
    evaluate (.less e1 e2) s i
      = (evaluate e1 s i).bind (fun v1 => (evaluate e2 s i).bind (pyLt v1)) ∧
    evaluate (.and e1 e2) s i
      = (evaluate e1 s i).bind (fun v1 => (evaluate e2 s i).bind (pyAnd v1)) ∧
    evaluate (.or e1 e2) s i
      = (evaluate e1 s i).bind (fun v1 => (evaluate e2 s i).bind (pyOr v1)) :=
  ⟨rfl, rfl, rfl, rfl, rfl, rfl, rfl, rfl⟩

/-- C2: the type tag of every node is fixed by its constructor, matching the
table of the spec: VariableValue, Plus, Minus, Product and Division always
carry NAT, and Equal, Less, And, Or and Not always carry BOOL, for every way
of constructing them; in this functional model the tag is immutable by
construction. -/
theorem type_tag_by_constructor (name : String) (e e1 e2 : Expr) :
    (Expr.variableValue name).type = .NAT ∧
    (Expr.plus e1 e2).type = .NAT ∧
    (Expr.minus e1 e2).type = .NAT ∧
    (Expr.product e1 e2).type = .NAT ∧
    (Expr.division e1 e2).type = .NAT ∧
    (Expr.equal e1 e2).type = .BOOL ∧
    (Expr.less e1 e2).type = .BOOL ∧
    (Expr.and e1 e2).type = .BOOL ∧
    (Expr.or e1 e2).type = .BOOL ∧
    (Expr.not e).type = .BOOL :=
  ⟨rfl, rfl, rfl, rfl, rfl, rfl, rfl, rfl, rfl, rfl⟩

/-- C8: evaluating a bare base-class Expression node succeeds for every type
tag, store and step index, and always returns the same fixed symbolic
integer variable named none. -/
theorem base_expression_evaluates_to_none_var (t : Ty) (s : Store) (i : Int) :
    evaluate (.base t) s i = .ok (.term (.intVar "none")) :=
  rfl

/-- C9: Constant evaluation ignores both of its arguments: for every tag and
literal it succeeds at every store and step index, returns exactly the
literal supplied at construction, and two evaluations at different stores
and indices agree. -/
theorem constant_evaluate_ignores_args (t : Ty) (v : PyLit)
    (s1 s2 : Store) (i1 i2 : Int) :
    evaluate (.constant t v) s1 i1 = .ok (litVal v) ∧
    evaluate (.constant t v) s1 i1 = evaluate (.constant t v) s2 i2 :=
  ⟨rfl, rfl⟩

/-- C3: evaluating the variable leaf named z against any store with no entry
for z fails with the UnboundVariable lookup failure at every step index; the
result is an error, never a default value. -/
theorem unbound_variable_fails (s : Store) (i : Int)
    (h : s.lookup "z" = none) :
    evaluate (.variableValue "z") s i = .error (.unboundVariable "z") := by
  simp [evaluate, h]

/-- Witness for C3 at a concrete store holding only x and step index 7. -/
theorem unbound_variable_fails_witness :
    evaluate (.variableValue "z") [("x", [SymTerm.intVar "x0"])] 7
      = .error (.unboundVariable "z") :=
  unbound_variable_fails [("x", [SymTerm.intVar "x0"])] 7 rfl

/-- C4: for every store holding the referenced name and every step index
outside the populated range of the sequence of that name, including every
negative index, evaluation of the variable leaf fails with the
StepIndexOutOfRange error: no clamping, padding, or value from another
position. -/
theorem step_index_out_of_range_fails (s : Store) (name : String)
    (seq : List SymTerm) (i : Int) (hname : s.lookup name = some seq)
    (hi : i < 0 ∨ (seq.length : Int) ≤ i) :
    evaluate (.variableValue name) s i = .error .stepIndexOutOfRange := by
  have hcond : ¬(0 ≤ i ∧ i.toNat < seq.length) := by omega
  simp [evaluate, hname, seqGet, hcond, Except.map]

/-- Witness for C4 at a concrete one-entry store, at the negative index -1
and at the index 5 past the end of the two-step sequence. -/
theorem step_index_out_of_range_fails_witness :
    evaluate (.variableValue "x")
        [("x", [SymTerm.intVar "x0", SymTerm.intVar "x1"])] (-1)
      = .error .stepIndexOutOfRange ∧
    evaluate (.variableValue "x")
        [("x", [SymTerm.intVar "x0", SymTerm.intVar "x1"])] 5
      = .error .stepIndexOutOfRange :=
  ⟨step_index_out_of_range_fails _ "x" [SymTerm.intVar "x0", SymTerm.intVar "x1"]
      (-1) rfl (by decide),
   step_index_out_of_range_fails _ "x" [SymTerm.intVar "x0", SymTerm.intVar "x1"]
      5 rfl (by decide)⟩

/-- C5 counterexample: the claimed rendering of Not over Less is wrong; the
Not renderer wraps its child in one more pair of parentheses than the claim
states, so the output is not the string claimed. -/
theorem not_render_counterexample :
    Expr.repr (.not (.less (.variableValue "x") (.constant .NAT (.int 0))))
      ≠ some "!(x < 0)" := by
  decide

/-- C5 amended: Plus over the constant 2 and the variable x renders exactly
as the claim states, GoTo at line 3 with an equality guard and target 10
renders exactly as the claim states, and Not over Less renders with the
parenthesized child wrapped once more by the Not renderer. -/
theorem render_exact_forms :
    Expr.repr (.plus (.constant .NAT (.int 2)) (.variableValue "x"))
      = some "(2 + x)" ∧
    Expr.repr (.not (.less (.variableValue "x") (.constant .NAT (.int 0))))
      = some "!((x < 0))" ∧
    Command.repr (.goTo 3 (.equal (.variableValue "y") (.constant .NAT (.int 0))) 10)
      = some "3: (y == 0) => goto 10" := by
  refine ⟨?_, ?_, ?_⟩ <;> decide

/-- C6: evaluation is deterministic: at a fixed node, store and step index,
any two results of evaluation are equal; there is no hidden state that could
make two runs differ. -/
theorem evaluate_deterministic (e : Expr) (s : Store) (i : Int)
    (r1 r2 : Except EvalError PyVal)
    (h1 : evaluate e s i = r1) (h2 : evaluate e s i = r2) : r1 = r2 :=
  h1.symm.trans h2

/-- Witness for C6 at a concrete node, store and index. -/
theorem evaluate_deterministic_witness :
    evaluate (.plus (.constant .NAT (.int 1)) (.variableValue "x"))
        [("x", [SymTerm.intVar "x0"])] 0
      = evaluate (.plus (.constant .NAT (.int 1)) (.variableValue "x"))
        [("x", [SymTerm.intVar "x0"])] 0 :=
  evaluate_deterministic
    (.plus (.constant .NAT (.int 1)) (.variableValue "x"))
    [("x", [SymTerm.intVar "x0"])] 0 _ _ rfl rfl

/-- C7: evaluation never changes the store: the store-threading evaluator
hands back exactly the store it was given, for every node, store and step
index, and computes the same result as the plain evaluator; the expression
tree itself, a value in this model, is untouched. -/
theorem evaluate_preserves_store (e : Expr) (s : Store) (i : Int) :
    (evaluateSt e s i).2 = s ∧ (evaluateSt e s i).1 = evaluate e s i := by
  rw [evaluateSt_eq]
  exact ⟨rfl, rfl⟩

/-- No dyadic rational equals one third: otherwise 3 would divide a power
of 2. -/
theorem third_not_dyadic (n E : Int) : (n : ℚ) * (2 : ℚ) ^ E ≠ 1 / 3 := by
  intro h
  have h3 : (n : ℚ) * (2 : ℚ) ^ E * 3 = 1 := by rw [h]; norm_num
  rcases le_or_lt 0 E with hE | hE
  · lift E to ℕ using hE
    rw [zpow_natCast] at h3
    have h4 : ((n * 2 ^ E * 3 : ℤ) : ℚ) = ((1 : ℤ) : ℚ) := by push_cast; linarith
    have h5 : n * 2 ^ E * 3 = 1 := Int.cast_injective h4
    have h6 : (3 : ℤ) ∣ 1 := ⟨n * 2 ^ E, by linarith⟩
    norm_num at h6
  · obtain ⟨t, ht⟩ : ∃ t : ℕ, E = -(t : Int) := ⟨(-E).toNat, by omega⟩
    subst ht
    rw [zpow_neg, zpow_natCast] at h3
    have hp : (0 : ℚ) < 2 ^ t := by positivity
    have h4 : (n : ℚ) * 3 = 2 ^ t := by
      field_simp at h3
      linarith
    have h5 : ((n * 3 : ℤ) : ℚ) = ((2 ^ t : ℤ) : ℚ) := by push_cast; linarith
    have h6 : n * 3 = 2 ^ t := Int.cast_injective h5
    have h7 : (3 : ℤ) ∣ 2 ^ t := ⟨n, by linarith⟩
    have h8 : (3 : ℤ) ∣ 2 := (Int.prime_three).dvd_of_dvd_pow h7
    norm_num at h8

/-- A result drawn from an overflow-checked sign split over a dyadic
magnitude is dyadic. -/
theorem signed_dyadic_shape (c1 c2 : Prop) [Decidable c1] [Decidable c2]
    (n E : Int) (err : EvalError) (r : ℚ)
    (h : (if c1 then Except.error err
          else if c2 then Except.ok ((n : ℚ) * (2 : ℚ) ^ E)
          else Except.ok (-((n : ℚ) * (2 : ℚ) ^ E))) = Except.ok r) :
    ∃ m F : Int, r = (m : ℚ) * (2 : ℚ) ^ F := by
  split at h
  · exact Except.noConfusion h
  · split at h
    · injection h with h
      exact ⟨n, E, h.symm⟩
    · injection h with h
      exact ⟨-n, E, by rw [← h]; push_cast; ring⟩

/-- Every successful result of the rounded division is a dyadic rational. -/
theorem divRound_dyadic (a b : Int) (r : ℚ) (h : divRound a b = .ok r) :
    ∃ n E : Int, r = (n : ℚ) * (2 : ℚ) ^ E := by
  simp only [divRound] at h
  split at h
  · injection h with h
    exact ⟨0, 0, by rw [← h]; norm_num⟩
  · exact signed_dyadic_shape _ _ _ _ _ _ h

/-- Binary exponent of 3 / 2 computed: 1 ≤ 3 / 2 < 2. -/
theorem ratExp_three_two : ratExp 3 2 = 0 := by
  have h3 : ((natLog2 3 : Int)) = 1 := rfl
  have h2 : ((natLog2 2 : Int)) = 1 := rfl
  simp only [ratExp, h3, h2]
  norm_num

/-- Rounded division of 3 by 2 computed: the quotient 3 / 2 is exactly
representable, so rounding returns it unchanged. -/
theorem divRound_three_two : divRound 3 2 = .ok ((3 : ℚ) / 2) := by
  simp only [divRound]
  rw [show (3 : ℤ).natAbs = 3 from rfl, show (2 : ℤ).natAbs = 2 from rfl]
  rw [ratExp_three_two]
  rw [show max ((0 : ℤ) - 52) (-1074) = (-52 : ℤ) from by decide]
  rw [show -(-52 : ℤ) = (52 : ℤ) from by decide]
  have hx : ((3 : ℕ) : ℚ) / ((2 : ℕ) : ℚ) * (2 : ℚ) ^ (52 : ℤ)
      = ((6755399441055744 : ℤ) : ℚ) := by
    rw [show ((52 : ℤ)) = ((52 : ℕ) : ℤ) from rfl, zpow_natCast]
    push_cast
    norm_num
  rw [hx]
  have hn : roundHalfEven ((6755399441055744 : ℤ) : ℚ) = 6755399441055744 := by
    simp [roundHalfEven, Int.floor_intCast]
  rw [hn]
  have hr : ((6755399441055744 : ℤ) : ℚ) * (2 : ℚ) ^ (-52 : ℤ) = (3 : ℚ) / 2 := by
    rw [zpow_neg, show ((52 : ℤ)) = ((52 : ℕ) : ℤ) from rfl, zpow_natCast]
    push_cast
    norm_num
  rw [hr]
  have hov : ¬((2 : ℚ) ^ (1024 : ℤ) ≤ (3 : ℚ) / 2) := by
    rw [show ((1024 : ℤ)) = ((1024 : ℕ) : ℤ) from rfl, zpow_natCast]
    norm_num
  rw [if_neg (by norm_num : ¬(3 : ℤ) = 0), if_neg hov,
    if_pos (by norm_num : (0 < (3 : ℤ)) ↔ (0 < (2 : ℤ)))]

/-- C10 counterexample: division of the constant naturals 1 and 3 does not
return the exact true quotient one third: the program rounds the quotient
to the nearest binary64 double, a dyadic rational, and no dyadic rational
equals one third. -/
theorem division_inexact_counterexample :
    evaluate (.division (.constant .NAT (.int 1)) (.constant .NAT (.int 3))) [] 0
      ≠ .ok (.float ((1 : ℚ) / 3)) := by
  have h0 : evaluate (.division (.constant .NAT (.int 1)) (.constant .NAT (.int 3))) [] 0
      = (divRound 1 3).map PyVal.float := by
    norm_num [evaluate, litVal, pyDiv, concreteRat, Except.bind,
      Rat.num_intCast, Rat.den_intCast, Rat.num_ofNat, Rat.den_ofNat]
  intro h
  rw [h0] at h
  cases hd : divRound 1 3 with
  | error err =>
    rw [hd] at h
    simp [Except.map] at h
  | ok r =>
    rw [hd] at h
    simp only [Except.map] at h
    injection h with h
    injection h with h
    obtain ⟨n, E, hnE⟩ := divRound_dyadic 1 3 r hd
    exact third_not_dyadic n E (by rw [← hnE, h])

/-- C10 amended: division of two constant naturals with a nonzero divisor
returns the true quotient correctly rounded to a binary64 float, never a
truncated integer division, so the result is exact precisely at
representable quotients: at the representable input 3 over 2 it is exactly
the non-integer rational 3 / 2, which equals no natural number. -/
theorem division_rounded_quotient :
    (∀ (s : Store) (i : Int) (a b : ℕ), b ≠ 0 →
      evaluate (.division (.constant .NAT (.int (a : ℤ)))
          (.constant .NAT (.int (b : ℤ)))) s i
        = (divRound (a : ℤ) (b : ℤ)).map PyVal.float) ∧
    (∀ (s : Store) (i : Int),
      evaluate (.division (.constant .NAT (.int 3)) (.constant .NAT (.int 2))) s i
        = .ok (.float ((3 : ℚ) / 2))) ∧
    ¬∃ n : ℕ, (3 : ℚ) / 2 = (n : ℚ) := by
  refine ⟨?_, ?_, ?_⟩
  · intro s i a b hb
    simp [evaluate, litVal, pyDiv, concreteRat, Except.bind, hb,
      Rat.num_intCast, Rat.den_intCast]
  · intro s i
    have h0 : evaluate (.division (.constant .NAT (.int 3))
          (.constant .NAT (.int 2))) s i
        = (divRound 3 2).map PyVal.float := by
      norm_num [evaluate, litVal, pyDiv, concreteRat, Except.bind,
        Rat.num_intCast, Rat.den_intCast, Rat.num_ofNat, Rat.den_ofNat]
    rw [h0, divRound_three_two]
    rfl
  · rintro ⟨n, h⟩
    have h3 : (3 : ℚ) = (n : ℚ) * 2 := (div_eq_iff (by norm_num)).mp h
    have h4 : (3 : ℕ) = n * 2 := by exact_mod_cast h3
    omega

/-- Witness for C10: the universal part applied at the empty store, step
index 0, dividend 1 and divisor 3. -/
theorem division_rounded_quotient_witness :
    evaluate (.division (.constant .NAT (.int ((1 : ℕ) : ℤ)))
        (.constant .NAT (.int ((3 : ℕ) : ℤ)))) [] 0
      = (divRound ((1 : ℕ) : ℤ) ((3 : ℕ) : ℤ)).map PyVal.float :=
  division_rounded_quotient.1 [] 0 1 3 (by decide)

end ImpToSmt
